import Mathlib

/-!
Verification development for the serp-tracker repository.

The Python sources are shallowly embedded here:
- character-list string helpers model the Python string operations used by
  the code (str.replace, str.lower, substring membership, urlparse netloc);
- src/database.py : RankingDatabase (rankings upsert, alert classification,
  current-rankings query) becomes pure functions over an explicit DB state;
- src/scraper.py : result parsing, the requests/selenium strategies (with
  the fetch environment made an explicit parameter) and create_scraper;
- src/tracker.py : the track_all orchestration loop becomes a fold over the
  per-keyword scrape/save outcomes supplied by the environment.

Dates are modelled as natural numbers (the code stores ISO day strings whose
lexicographic order agrees with day order); positions are integers as in
Python.
-/

/-! ## String helpers (character-list models of the Python string operations) -/

/-- Boolean substring test: Python `needle in hay`, on character lists. -/
def hasSubL : List Char → List Char → Bool
  | hay, needle =>
    needle.isPrefixOf hay ||
      match hay with
      | [] => false
      | _ :: rest => hasSubL rest needle

/-- Python `needle in hay` on strings. -/
def strContains (hay needle : String) : Bool := hasSubL hay.data needle.data

/-- Fuelled worker for left-to-right non-overlapping removal of every
occurrence of a pattern, the semantics of Python
`s.replace(pat, "")`. The fuel is the length of the scanned list, which is
enough because each step consumes at least one character. -/
def removeAllAux : Nat → List Char → List Char → List Char
  | 0, s, _ => s
  | _, [], _ => []
  | fuel + 1, c :: rest, pat =>
    if pat.isPrefixOf (c :: rest) && !pat.isEmpty then
      removeAllAux fuel ((c :: rest).drop pat.length) pat
    else
      c :: removeAllAux fuel rest pat

/-- Python `s.replace(pat, "")`: delete every occurrence of `pat`,
scanning left to right, non-overlapping. -/
def removeAll (s pat : String) : String :=
  String.mk (removeAllAux s.data.length s.data pat.data)

/-- Python `s.lower()` (ASCII case folding suffices for the inputs the
code compares). -/
def lowerS (s : String) : String := String.mk (s.data.map Char.toLower)

/-- Split a character list at the first occurrence of a pattern, returning
the parts before and after it, or none when the pattern does not occur. -/
def splitFirst : List Char → List Char → Option (List Char × List Char)
  | s, pat =>
    if pat.isPrefixOf s && !pat.isEmpty then
      some ([], s.drop pat.length)
    else
      match s with
      | [] => none
      | c :: rest =>
        match splitFirst rest pat with
        | some (pre, post) => some (c :: pre, post)
        | none => none

/-- Model of `urllib.parse.urlparse(url).netloc` for URLs carrying an
authority component: the text between the first `//` and the next
`/`, `?` or `#` (empty when the URL has no `//`). -/
def netloc (url : String) : String :=
  match splitFirst url.data "//".data with
  | some (_, rest) =>
    String.mk (rest.takeWhile fun c => !(c == '/' || c == '?' || c == '#'))
  | none => ""

/-! ## Data model (src/database.py tables) -/

/-- One row of the `rankings` table (src/database.py lines 25-40).
`check_date` is a day number; the row id and created_at columns are not
modelled because no query reads them. -/
structure RankRow where
  client_id : String
  domain : String
  keyword : String
  position : Option Int
  url : Option String
  title : Option String
  snippet : Option String
  check_date : Nat
  search_volume : Option Int
deriving DecidableEq, Repr

/-- One row of the `alerts` table (src/database.py lines 49-62), without
the id/created_at columns. `acknowledged` defaults to false on insert. -/
structure AlertRow where
  client_id : String
  keyword : String
  alert_type : String
  old_position : Option Int
  new_position : Option Int
  change : Int
  alert_date : Nat
  acknowledged : Bool
deriving DecidableEq, Repr

/-- The persistent store: rankings plus alerts, each as a list of rows in
table order. -/
structure DB where
  rankings : List RankRow
  alerts : List AlertRow
deriving DecidableEq, Repr

/-- The UNIQUE key of the rankings table: (client_id, keyword, check_date). -/
def sameKey (r : RankRow) (client keyword : String) (day : Nat) : Bool :=
  r.client_id == client && r.keyword == keyword && r.check_date == day

/-! ## Alert detection (src/database.py `_check_for_alerts`, lines 121-177) -/

/-- Candidate filter of the prior-record query: same client and keyword,
check_date strictly earlier than the new record's date. -/
def priorCand (client keyword : String) (day : Nat) (r : RankRow) : Bool :=
  r.client_id == client && r.keyword == keyword && decide (r.check_date < day)

/-- Pick the row with the greatest check_date, mirroring
ORDER BY check_date DESC LIMIT 1 (under the table's unique key the
candidate dates are distinct, so the maximum is unambiguous). -/
def laterRow (acc : Option RankRow) (r : RankRow) : Option RankRow :=
  match acc with
  | none => some r
  | some b => if b.check_date < r.check_date then some r else some b

/-- The prior-position lookup of `_check_for_alerts` (lines 131-137):
`SELECT position FROM rankings WHERE client_id = ? AND keyword = ? AND
check_date < ? ORDER BY check_date DESC LIMIT 1`. Returns none when no
prior record exists, otherwise the stored (possibly NULL) position. -/
def prevPosition (rankings : List RankRow) (client keyword : String)
    (day : Nat) : Option (Option Int) :=
  ((rankings.filter (priorCand client keyword day)).foldl laterRow none).map
    (fun r => r.position)

/-- The ordered decision list of `_check_for_alerts` (lines 143-169),
mapping (old_position, new_position) to an alert type and change, or none
when no alert is warranted. The new_entry branch mirrors the Python
`-new_position if new_position else 0`, where a 0 position is falsy. -/
def classifyAlert (oldPos newPos : Option Int) : Option (String × Int) :=
  match oldPos, newPos with
  | none, none => none
  | none, some n => some ("new_entry", if n == 0 then 0 else -n)
  | some o, none => some ("dropped_out", o)
  | some o, some n =>
    let change := o - n
    if 5 ≤ change.natAbs then some ("major_movement", change)
    else if o ≤ 10 ∧ 10 < n then some ("exited_top_10", change)
    else if 10 < o ∧ n ≤ 10 then some ("entered_top_10", change)
    else if o ≤ 3 ∧ 3 < n then some ("exited_top_3", change)
    else if 3 < o ∧ n ≤ 3 then some ("entered_top_3", change)
    else none

/-- `_check_for_alerts` (lines 121-177): look up the most recent prior
record; do nothing when none exists, otherwise classify the transition and
append an alert row on a qualifying match. The alert_date is the run day
(the code stores datetime.now()). -/
def check_for_alerts (rankings : List RankRow) (alerts : List AlertRow)
    (client keyword : String) (newPos : Option Int) (day : Nat) :
    List AlertRow :=
  match prevPosition rankings client keyword day with
  | none => alerts
  | some oldPos =>
    match classifyAlert oldPos newPos with
    | none => alerts
    | some (ty, ch) =>
      alerts ++ [⟨client, keyword, ty, oldPos, newPos, ch, day, false⟩]

/-! ## save_ranking (src/database.py lines 81-119) -/

/-- The successful path of `save_ranking`: INSERT OR REPLACE into rankings
keyed on (client_id, keyword, check_date), with check_date the current
day, then run alert detection over the updated table. -/
def save_ranking (db : DB) (client domain keyword : String)
    (position : Option Int) (url title snippet : Option String)
    (volume : Option Int) (today : Nat) : DB :=
  let row : RankRow :=
    ⟨client, domain, keyword, position, url, title, snippet, today, volume⟩
  let rankings :=
    db.rankings.filter (fun r => !(sameKey r client keyword today)) ++ [row]
  let alerts := check_for_alerts rankings db.alerts client keyword position today
  ⟨rankings, alerts⟩

/-! ## Result parsing (src/scraper.py `_parse_google_results`, lines 129-180) -/

/-- One candidate result container from the fetched page, as BeautifulSoup
hands it to the loop: the href of its first anchor (none when there is no
anchor or the anchor has no href), the h3 text and the snippet text (none
when the sub-element is absent; the code substitutes empty strings). -/
structure ResultDiv where
  href : Option String
  title : Option String
  snippet : Option String
deriving DecidableEq, Repr

/-- Loop worker of `_parse_google_results`: walk the containers carrying
the count of organic entries seen so far. An entry with no usable href or
with google.com in its url is skipped without consuming a position;
otherwise the position is incremented, the host is extracted and stripped
of every lowercase `www.` occurrence, and the first entry whose normalized
host contains the lowercased target wins. -/
def parseLoop (target : String) : List ResultDiv → Nat →
    Option (Nat × String × String × String)
  | [], _ => none
  | div :: rest, pos =>
    match div.href with
    | none => parseLoop target rest pos
    | some url =>
      if url == "" then parseLoop target rest pos
      else if strContains url "google.com" then parseLoop target rest pos
      else
        let pos := pos + 1
        let domain := removeAll (netloc url) "www."
        if strContains (lowerS domain) (lowerS target) then
          some (pos, url, div.title.getD "", div.snippet.getD "")
        else
          parseLoop target rest pos

/-- `_parse_google_results(soup, target_domain)`: the page body is given
as its list of candidate result containers (the two find_all selector
attempts only determine this list). Returns the 1-based organic position,
url, title and snippet of the first match, or none when the target is not
found. -/
def parse_google_results (divs : List ResultDiv) (target : String) :
    Option (Nat × String × String × String) :=
  parseLoop target divs 0

/-! ## Requests strategy (src/scraper.py `_search_with_requests`, lines 45-82) -/

/-- Observable outcome of the HTTP fetch: a successfully retrieved page
(given as its parsed result containers) or a raised error, covering
transport failures, timeouts and raise_for_status on a non-success
status. -/
inductive FetchOutcome where
  | success (divs : List ResultDiv)
  | failure (msg : String)
deriving DecidableEq, Repr

/-- `_search_with_requests`: on a fetched page, parse it; on any exception
the bare except prints the error and returns None (lines 80-82), the same
value the parser returns for a page without a match. -/
def search_with_requests (env : FetchOutcome) (target : String) :
    Option (Nat × String × String × String) :=
  match env with
  | .success divs => parse_google_results divs target
  | .failure _ => none

/-! ## Selenium strategy (src/scraper.py `_search_with_selenium`, lines 84-127) -/

/-- Steps of a selenium scrape that touch the browser resource. -/
inductive SelAction where
  | createDriver
  | navigate
  | quitDriver
deriving DecidableEq, Repr

/-- What the environment does once the driver exists: the navigation, the
wait for the results container and the page-source read all succeed and
yield a page, or some step of the try body raises. -/
inductive SelOutcome where
  | loaded (divs : List ResultDiv)
  | raised (msg : String)
deriving DecidableEq, Repr

/-- The try body of `_search_with_selenium` (lines 103-121), returning its
value or exception together with the browser actions it performed. -/
def seleniumBody (env : SelOutcome) (target : String) :
    Except String (Option (Nat × String × String × String)) × List SelAction :=
  match env with
  | .loaded divs => (.ok (parse_google_results divs target), [.navigate])
  | .raised msg => (.error msg, [.navigate])

/-- try/except/finally of `_search_with_selenium`: the except clause turns
any exception into None (lines 123-125), and the finally clause quits the
driver on both paths (lines 126-127). -/
def tryExceptFinally
    (body : Except String (Option (Nat × String × String × String)) × List SelAction)
    (finalAct : SelAction) :
    Option (Nat × String × String × String) × List SelAction :=
  match body with
  | (.ok v, tr) => (v, tr ++ [finalAct])
  | (.error _, tr) => (none, tr ++ [finalAct])

/-- `_search_with_selenium`: create the driver (lines 100-101), then run
the try body under the except/finally wrapper. The action trace records
every browser-resource step in order. -/
def search_with_selenium (env : SelOutcome) (target : String) :
    Option (Nat × String × String × String) × List SelAction :=
  let (result, tr) := tryExceptFinally (seleniumBody env target) .quitDriver
  (result, .createDriver :: tr)

/-! ## Scraper factory (src/scraper.py `create_scraper`, lines 222-235) -/

/-- The scraping section of the configuration, as `create_scraper` reads
it: `proxy_service` and `scraperapi_key` may be absent, `use_selenium`
defaults to false. -/
structure ScrapingConfig where
  proxy_service : Option String
  scraperapi_key : Option String
  use_selenium : Bool
deriving DecidableEq, Repr

/-- Which scraper object the factory hands back, and whether it printed
the missing-key warning on the way. -/
inductive ScraperChoice where
  | requests
  | selenium
  | scraperapi (key : String)
deriving DecidableEq, Repr

/-- `create_scraper(config)`. The Except codomain records that a Python
call can raise: this function contains no raise and always returns a
scraper. When scraperapi is selected but the key is absent or empty
(falsy in Python), it prints a warning (the returned flag) and falls back
to the requests-based scraper. -/
def create_scraper (cfg : ScrapingConfig) :
    Except String (ScraperChoice × Bool) :=
  if cfg.proxy_service == some "scraperapi" then
    match cfg.scraperapi_key with
    | none => .ok (.requests, true)
    | some key =>
      if key == "" then .ok (.requests, true)
      else .ok (.scraperapi key, false)
  else
    .ok (if cfg.use_selenium then .selenium else .requests, false)

/-! ## Current rankings (src/database.py `get_current_rankings`, lines 179-203) -/

/-- ORDER BY position ASC NULLS LAST, as a relation on stored positions. -/
def posLE (a b : Option Int) : Bool :=
  match a, b with
  | none, none => true
  | none, some _ => false
  | some _, none => true
  | some x, some y => decide (x ≤ y)

/-- The same order lifted to rankings rows. -/
def rowLE (a b : RankRow) : Prop := posLE a.position b.position = true

instance : DecidableRel rowLE := fun _ _ =>
  inferInstanceAs (Decidable (_ = true))

/-- `SELECT MAX(check_date)` over a set of rows: none on an empty set. -/
def maxCheckDate (rows : List RankRow) : Option Nat :=
  rows.foldl
    (fun acc r =>
      match acc with
      | none => some r.check_date
      | some m => some (max m r.check_date))
    none

/-- `get_current_rankings(client_id)`: the rows of the client whose
check_date equals the client's greatest check_date, ordered by position
ascending with NULL positions last (the SQL engine's sort is modelled by
insertion sort; the query projects four columns, which the claims do not
depend on, so whole rows are returned). -/
def get_current_rankings (db : DB) (client : String) : List RankRow :=
  let clientRows := db.rankings.filter (fun r => r.client_id == client)
  match maxCheckDate clientRows with
  | none => []
  | some m =>
    List.insertionSort rowLE (clientRows.filter (fun r => r.check_date == m))

/-! ## Orchestration (src/tracker.py `track_all`, lines 28-129) -/

/-- Observable outcome of one `scraper.search_google` call as `track_all`
sees it: a returned tuple, a returned None (not in the result window), or
an exception propagating out of the call. -/
inductive ScrapeOutcome where
  | found (position : Int) (url title snippet : String)
  | notFound
  | raised (msg : String)
deriving DecidableEq, Repr

/-- Outcome of the persistence layer for one `save_ranking` call: ok, or a
storage failure raised by the INSERT, which `save_ranking` catches itself,
printing the error and returning False with the store unchanged
(src/database.py lines 115-117). -/
inductive SaveOutcome where
  | ok
  | storageFailure
deriving DecidableEq, Repr

/-- One keyword check of a run: the (client, domain, keyword) triple the
loop iterates over, plus the scrape and storage outcomes the environment
supplies for it. -/
structure KeywordCheck where
  client_id : String
  domain : String
  keyword : String
  scrape : ScrapeOutcome
  save : SaveOutcome
deriving DecidableEq, Repr

/-- `save_ranking` with its storage outcome: on a storage failure the
exception is caught inside save_ranking, the store is unchanged and False
is returned; track_all ignores this return value. -/
def save_ranking_outcome (db : DB) (client domain keyword : String)
    (position : Option Int) (url title snippet : Option String)
    (volume : Option Int) (today : Nat) (o : SaveOutcome) : DB × Bool :=
  match o with
  | .ok => (save_ranking db client domain keyword position url title snippet volume today, true)
  | .storageFailure => (db, false)

/-- Mutable state of one `track_all` run: the counters, the error list and
the store. -/
structure RunState where
  total : Nat
  successful : Nat
  failed : Nat
  errors : List String
  db : DB
deriving DecidableEq, Repr

/-- The body of the per-keyword loop of `track_all` (lines 56-100): count
the keyword; on a returned tuple save it and count a success; on a
returned None save a NULL position and count a success; on an exception
count a failure and append "keyword: error" to the error list and move
on. -/
def processKeyword (today : Nat) (st : RunState) (kc : KeywordCheck) :
    RunState :=
  let st := { st with total := st.total + 1 }
  match kc.scrape with
  | .found p u t s =>
    { st with
        db := (save_ranking_outcome st.db kc.client_id kc.domain
          kc.keyword (some p) (some u) (some t) (some s) none today
          kc.save).1
        successful := st.successful + 1 }
  | .notFound =>
    { st with
        db := (save_ranking_outcome st.db kc.client_id kc.domain
          kc.keyword none none none none none today kc.save).1
        successful := st.successful + 1 }
  | .raised msg =>
    { st with
        failed := st.failed + 1
        errors := st.errors ++ [kc.keyword ++ ": " ++ msg] }

/-- `track_all`: fold the per-keyword loop over every keyword of every
client, in configuration order, starting from zero counters, an empty
error list and the given store. The run record logged at the end
(lines 106-112) carries the final total/successful/failed counters and
error list, which are exactly the fields of the returned state. -/
def track_all (db : DB) (today : Nat) (checks : List KeywordCheck) :
    RunState :=
  checks.foldl (processKeyword today) ⟨0, 0, 0, [], db⟩

/-! ## Helper lemmas -/

theorem check_for_alerts_prev_none {rankings : List RankRow}
    {alerts : List AlertRow} {c k : String} {p : Option Int} {d : Nat}
    (h : prevPosition rankings c k d = none) :
    check_for_alerts rankings alerts c k p d = alerts := by
  unfold check_for_alerts
  rw [h]

theorem check_for_alerts_prev_some {rankings : List RankRow}
    {alerts : List AlertRow} {c k : String} {p : Option Int} {d : Nat}
    {oldPos : Option Int}
    (h : prevPosition rankings c k d = some oldPos) :
    check_for_alerts rankings alerts c k p d =
      alerts ++
        (match classifyAlert oldPos p with
         | none => []
         | some (ty, ch) => [⟨c, k, ty, oldPos, p, ch, d, false⟩]) := by
  unfold check_for_alerts
  rw [h]
  cases hcl : classifyAlert oldPos p with
  | none => simp [hcl]
  | some v => cases v with
    | mk ty ch => simp [hcl]

theorem save_ranking_alerts_eq (db : DB) (c dom k : String)
    (pos : Option Int) (u t s : Option String) (v : Option Int)
    (today : Nat) :
    (save_ranking db c dom k pos u t s v today).alerts =
      check_for_alerts (save_ranking db c dom k pos u t s v today).rankings
        db.alerts c k pos today := rfl

/-- C1. On every save, the store looks up the most recent prior record for
the same (client_id, keyword) with a strictly earlier check_date; when none
exists no alert is appended, and when one exists the transition is
classified by the 9-rule ordered decision list of the code, first match
wins: both positions absent gives no alert; old absent and new present
gives new_entry with change equal to minus the new position; old present
and new absent gives dropped_out with change the old position; with both
present the change is old minus new and a magnitude of at least 5 gives
major_movement ahead of every boundary rule (in particular 20 to 10 gives
major_movement with change 10, not entered_top_10), then the exited and
entered top-10 and top-3 boundary rules fire in order, and otherwise no
alert is appended. -/
theorem alert_classification_decision_list :
    (∀ (db : DB) (c dom k : String) (pos : Option Int)
       (u t s : Option String) (v : Option Int) (today : Nat),
       prevPosition (save_ranking db c dom k pos u t s v today).rankings
           c k today = none →
         (save_ranking db c dom k pos u t s v today).alerts = db.alerts) ∧
    (∀ (db : DB) (c dom k : String) (pos : Option Int)
       (u t s : Option String) (v : Option Int) (today : Nat)
       (oldPos : Option Int),
       prevPosition (save_ranking db c dom k pos u t s v today).rankings
           c k today = some oldPos →
         (save_ranking db c dom k pos u t s v today).alerts =
           db.alerts ++
             (match classifyAlert oldPos pos with
              | none => []
              | some (ty, ch) => [⟨c, k, ty, oldPos, pos, ch, today, false⟩])) ∧
    classifyAlert none none = none ∧
    (∀ n : Int, classifyAlert none (some n) = some ("new_entry", -n)) ∧
    (∀ o : Int, classifyAlert (some o) none = some ("dropped_out", o)) ∧
    (∀ o n : Int, 5 ≤ (o - n).natAbs →
       classifyAlert (some o) (some n) = some ("major_movement", o - n)) ∧
    classifyAlert (some 20) (some 10) = some ("major_movement", 10) ∧
    (∀ o n : Int, (o - n).natAbs < 5 → o ≤ 10 → 10 < n →
       classifyAlert (some o) (some n) = some ("exited_top_10", o - n)) ∧
    (∀ o n : Int, (o - n).natAbs < 5 → 10 < o → n ≤ 10 →
       classifyAlert (some o) (some n) = some ("entered_top_10", o - n)) ∧
    (∀ o n : Int, (o - n).natAbs < 5 → o ≤ 3 → 3 < n →
       classifyAlert (some o) (some n) = some ("exited_top_3", o - n)) ∧
    (∀ o n : Int, (o - n).natAbs < 5 → 3 < o → n ≤ 3 →
       classifyAlert (some o) (some n) = some ("entered_top_3", o - n)) ∧
    (∀ o n : Int, (o - n).natAbs < 5 →
       ¬(o ≤ 10 ∧ 10 < n) → ¬(10 < o ∧ n ≤ 10) →
       ¬(o ≤ 3 ∧ 3 < n) → ¬(3 < o ∧ n ≤ 3) →
       classifyAlert (some o) (some n) = none) := by
  refine ⟨?_, ?_, rfl, ?_, ?_, ?_, ?_, ?_, ?_, ?_, ?_, ?_⟩
  · intro db c dom k pos u t s v today h
    rw [save_ranking_alerts_eq, check_for_alerts_prev_none h]
  · intro db c dom k pos u t s v today oldPos h
    rw [save_ranking_alerts_eq, check_for_alerts_prev_some h]
  · intro n
    simp only [classifyAlert]
    by_cases h : n = 0
    · subst h; simp
    · simp [h]
  · intro o
    rfl
  · intro o n h
    simp only [classifyAlert]
    rw [if_pos h]
  · rfl
  · intro o n h1 h2 h3
    simp only [classifyAlert]
    split_ifs <;> first | rfl | omega
  · intro o n h1 h2 h3
    simp only [classifyAlert]
    split_ifs <;> first | rfl | omega
  · intro o n h1 h2 h3
    simp only [classifyAlert]
    split_ifs <;> first | rfl | omega
  · intro o n h1 h2 h3
    simp only [classifyAlert]
    split_ifs <;> first | rfl | omega
  · intro o n h1 h2 h3 h4 h5
    simp only [classifyAlert]
    split_ifs <;> first | rfl | omega

/-- Witness for C1: concrete instances discharging each hypothesis of the
decision-list theorem. -/
theorem alert_classification_decision_list_witness :
    (save_ranking ⟨[], []⟩ "c" "d" "k" (some 5) none none none none 0).alerts
        = [] ∧
    (save_ranking
        ⟨[⟨"c", "d", "k", some 20, none, none, none, 1, none⟩], []⟩
        "c" "d" "k" (some 10) none none none none 2).alerts
      = [⟨"c", "k", "major_movement", some 20, some 10, 10, 2, false⟩] ∧
    classifyAlert (some 20) (some 10) = some ("major_movement", 10) ∧
    classifyAlert (some 11) (some 9) = some ("entered_top_10", 2) ∧
    classifyAlert (some 9) (some 11) = some ("exited_top_10", -2) ∧
    classifyAlert (some 2) (some 4) = some ("exited_top_3", -2) ∧
    classifyAlert (some 4) (some 2) = some ("entered_top_3", 2) ∧
    classifyAlert (some 15) (some 17) = none := by
  obtain ⟨hnone, hsome, _, _, _, hmaj, _, hex10, hen10, hex3, hen3, hno⟩ :=
    alert_classification_decision_list
  refine ⟨?_, ?_, ?_, ?_, ?_, ?_, ?_, ?_⟩
  · exact hnone ⟨[], []⟩ "c" "d" "k" (some 5) none none none none 0 (by decide)
  · rw [hsome ⟨[⟨"c", "d", "k", some 20, none, none, none, 1, none⟩], []⟩
      "c" "d" "k" (some 10) none none none none 2 (some 20) (by decide)]
    decide
  · exact hmaj 20 10 (by decide)
  · exact hen10 11 9 (by decide) (by decide) (by decide)
  · exact hex10 9 11 (by decide) (by decide) (by decide)
  · exact hex3 2 4 (by decide) (by decide) (by decide)
  · exact hen3 4 2 (by decide) (by decide) (by decide)
  · exact hno 15 17 (by decide) (by decide) (by decide) (by decide) (by decide)

theorem filter_key_of_filter_not_key (c k : String) (today : Nat)
    (l : List RankRow) :
    (l.filter (fun r => !(sameKey r c k today))).filter
        (fun r => sameKey r c k today) = [] := by
  induction l with
  | nil => rfl
  | cons a l ih =>
    cases h : sameKey a c k today <;>
      simp [List.filter_cons, h, ih]

theorem sameKey_new_row (c dom k : String) (pos : Option Int)
    (u t s : Option String) (v : Option Int) (today : Nat) :
    sameKey ⟨c, dom, k, pos, u, t, s, today, v⟩ c k today = true := by
  simp [sameKey]

theorem save_ranking_filter_key (db : DB) (c dom k : String)
    (pos : Option Int) (u t s : Option String) (v : Option Int)
    (today : Nat) :
    (save_ranking db c dom k pos u t s v today).rankings.filter
        (fun r => sameKey r c k today)
      = [⟨c, dom, k, pos, u, t, s, today, v⟩] := by
  show ((db.rankings.filter (fun r => !(sameKey r c k today)) ++
      [(⟨c, dom, k, pos, u, t, s, today, v⟩ : RankRow)]).filter
        (fun r => sameKey r c k today)) = _
  rw [List.filter_append, filter_key_of_filter_not_key]
  simp [List.filter_cons, sameKey_new_row]

/-- C4. Saving twice with the same (client_id, keyword, check_date) leaves
exactly one rankings row for that key, carrying the second save's column
values: the upsert replaces by key instead of appending. -/
theorem upsert_replaces_by_key (db : DB) (c dom1 dom2 k : String)
    (p1 p2 : Option Int) (u1 u2 t1 t2 s1 s2 : Option String)
    (v1 v2 : Option Int) (today : Nat) :
    (save_ranking (save_ranking db c dom1 k p1 u1 t1 s1 v1 today)
        c dom2 k p2 u2 t2 s2 v2 today).rankings.filter
        (fun r => sameKey r c k today)
      = [⟨c, dom2, k, p2, u2, t2, s2, today, v2⟩] :=
  save_ranking_filter_key _ c dom2 k p2 u2 t2 s2 v2 today

theorem priorCand_of_sameKey {c k : String} {today : Nat} {r : RankRow}
    (h : sameKey r c k today = true) :
    priorCand c k today r = false := by
  simp only [sameKey, Bool.and_eq_true, beq_iff_eq] at h
  obtain ⟨⟨h1, h2⟩, h3⟩ := h
  simp [priorCand, h3]

theorem filter_priorCand_of_filter_not_key (c k : String) (today : Nat)
    (l : List RankRow) :
    (l.filter (fun r => !(sameKey r c k today))).filter
        (priorCand c k today)
      = l.filter (priorCand c k today) := by
  induction l with
  | nil => rfl
  | cons a l ih =>
    cases h : sameKey a c k today with
    | false => simp [List.filter_cons, h, ih]
    | true =>
      simp [List.filter_cons, h, ih, priorCand_of_sameKey h]

theorem prevPosition_save_ranking (db : DB) (c dom k : String)
    (pos : Option Int) (u t s : Option String) (v : Option Int)
    (today : Nat) :
    prevPosition (save_ranking db c dom k pos u t s v today).rankings
        c k today
      = prevPosition db.rankings c k today := by
  show prevPosition
      (db.rankings.filter (fun r => !(sameKey r c k today)) ++
        [⟨c, dom, k, pos, u, t, s, today, v⟩]) c k today = _
  unfold prevPosition
  rw [List.filter_append, filter_priorCand_of_filter_not_key]
  have hrow : priorCand c k today ⟨c, dom, k, pos, u, t, s, today, v⟩ = false := by
    simp [priorCand]
  simp [List.filter_cons, hrow]

/-- C10. Alert emission is not idempotent although the ranking upsert is:
a second same-day save for the same (client_id, keyword, check_date) runs
alert detection again against the same prior record, so when the
transition qualifies the two saves leave exactly one rankings row for the
key but append two identical alert rows. -/
theorem same_day_resave_duplicates_alert (db : DB) (c dom k : String)
    (pos : Option Int) (u t s : Option String) (v : Option Int)
    (today : Nat) (oldPos : Option Int) (ty : String) (ch : Int)
    (hprev : prevPosition db.rankings c k today = some oldPos)
    (hcl : classifyAlert oldPos pos = some (ty, ch)) :
    (save_ranking (save_ranking db c dom k pos u t s v today)
        c dom k pos u t s v today).rankings.filter
        (fun r => sameKey r c k today)
      = [⟨c, dom, k, pos, u, t, s, today, v⟩] ∧
    (save_ranking (save_ranking db c dom k pos u t s v today)
        c dom k pos u t s v today).alerts
      = db.alerts ++
          [⟨c, k, ty, oldPos, pos, ch, today, false⟩,
           ⟨c, k, ty, oldPos, pos, ch, today, false⟩] := by
  constructor
  · exact save_ranking_filter_key _ c dom k pos u t s v today
  · have h1 : prevPosition
        (save_ranking db c dom k pos u t s v today).rankings c k today
        = some oldPos := by
      rw [prevPosition_save_ranking, hprev]
    have h2 : prevPosition
        (save_ranking (save_ranking db c dom k pos u t s v today)
          c dom k pos u t s v today).rankings c k today
        = some oldPos := by
      rw [prevPosition_save_ranking, h1]
    rw [save_ranking_alerts_eq, check_for_alerts_prev_some h2,
      save_ranking_alerts_eq, check_for_alerts_prev_some h1, hcl]
    simp

/-- Witness for C10: a prior-day position of 20 resaved twice today at
position 10 yields one rankings row for today and two identical
major_movement alerts. -/
theorem same_day_resave_duplicates_alert_witness :
    (save_ranking
        (save_ranking
          ⟨[⟨"c", "d", "k", some 20, none, none, none, 1, none⟩], []⟩
          "c" "d" "k" (some 10) none none none none 2)
        "c" "d" "k" (some 10) none none none none 2).rankings.filter
        (fun r => sameKey r "c" "k" 2)
      = [⟨"c", "d", "k", some 10, none, none, none, 2, none⟩] ∧
    (save_ranking
        (save_ranking
          ⟨[⟨"c", "d", "k", some 20, none, none, none, 1, none⟩], []⟩
          "c" "d" "k" (some 10) none none none none 2)
        "c" "d" "k" (some 10) none none none none 2).alerts
      = [⟨"c", "k", "major_movement", some 20, some 10, 10, 2, false⟩,
         ⟨"c", "k", "major_movement", some 20, some 10, 10, 2, false⟩] :=
  same_day_resave_duplicates_alert
    ⟨[⟨"c", "d", "k", some 20, none, none, none, 1, none⟩], []⟩
    "c" "d" "k" (some 10) none none none none 2 (some 20)
    "major_movement" 10 (by decide) (by decide)

/-! ## Run-accounting helpers and lemmas -/

/-- A check whose scrape call returned (with or without a position) rather
than raising. -/
def scrapeOk (kc : KeywordCheck) : Bool :=
  match kc.scrape with
  | .raised _ => false
  | _ => true

/-- The error-list entry a check contributes: some "keyword: error" for a
raising scrape, none otherwise. -/
def errEntry (kc : KeywordCheck) : Option String :=
  match kc.scrape with
  | .raised msg => some (kc.keyword ++ ": " ++ msg)
  | _ => none

/-- The rankings row that persisting this check writes today. -/
def savedRow (kc : KeywordCheck) (today : Nat) : RankRow :=
  match kc.scrape with
  | .found p u t s =>
    ⟨kc.client_id, kc.domain, kc.keyword, some p, some u, some t, some s,
      today, none⟩
  | _ =>
    ⟨kc.client_id, kc.domain, kc.keyword, none, none, none, none, today,
      none⟩

theorem foldl_run_total (today : Nat) (checks : List KeywordCheck) :
    ∀ st : RunState,
      (checks.foldl (processKeyword today) st).total
        = st.total + checks.length := by
  induction checks with
  | nil => intro st; simp
  | cons kc l ih =>
    intro st
    rw [List.foldl_cons, ih]
    have h : (processKeyword today st kc).total = st.total + 1 := by
      cases hsc : kc.scrape <;> simp [processKeyword, hsc]
    rw [h, List.length_cons]
    omega

theorem foldl_run_successful (today : Nat) (checks : List KeywordCheck) :
    ∀ st : RunState,
      (checks.foldl (processKeyword today) st).successful
        = st.successful + checks.countP (fun kc => scrapeOk kc) := by
  induction checks with
  | nil => intro st; simp
  | cons kc l ih =>
    intro st
    rw [List.foldl_cons, ih, List.countP_cons]
    cases hsc : kc.scrape <;>
      simp [processKeyword, hsc, scrapeOk] <;> omega

theorem foldl_run_failed (today : Nat) (checks : List KeywordCheck) :
    ∀ st : RunState,
      (checks.foldl (processKeyword today) st).failed
        = st.failed + checks.countP (fun kc => !(scrapeOk kc)) := by
  induction checks with
  | nil => intro st; simp
  | cons kc l ih =>
    intro st
    rw [List.foldl_cons, ih, List.countP_cons]
    cases hsc : kc.scrape
    all_goals simp [processKeyword, hsc, scrapeOk]
    all_goals omega

theorem foldl_run_errors (today : Nat) (checks : List KeywordCheck) :
    ∀ st : RunState,
      (checks.foldl (processKeyword today) st).errors
        = st.errors ++ checks.filterMap errEntry := by
  induction checks with
  | nil => intro st; simp
  | cons kc l ih =>
    intro st
    rw [List.foldl_cons, ih, List.filterMap_cons]
    cases hsc : kc.scrape
    all_goals simp [processKeyword, hsc, errEntry]

theorem sameKey_eq_false_of_ne {r : RankRow} {c k : String} {d : Nat}
    (h : r.client_id ≠ c ∨ r.keyword ≠ k) : sameKey r c k d = false := by
  cases h with
  | inl h => simp [sameKey, h]
  | inr h => simp [sameKey, h]

theorem mem_save_ranking_rankings_of_ne {db : DB} {r : RankRow}
    (c dom k : String) (pos : Option Int) (u t s : Option String)
    (v : Option Int) (today : Nat)
    (hr : r ∈ db.rankings) (hk : sameKey r c k today = false) :
    r ∈ (save_ranking db c dom k pos u t s v today).rankings := by
  show r ∈ db.rankings.filter (fun x => !(sameKey x c k today)) ++
    [(⟨c, dom, k, pos, u, t, s, today, v⟩ : RankRow)]
  refine List.mem_append_left _ ?_
  rw [List.mem_filter]
  exact ⟨hr, by simp [hk]⟩

theorem mem_processKeyword_of_ne (today : Nat) (st : RunState)
    (kc : KeywordCheck) {r : RankRow}
    (hr : r ∈ st.db.rankings)
    (hk : r.client_id ≠ kc.client_id ∨ r.keyword ≠ kc.keyword) :
    r ∈ (processKeyword today st kc).db.rankings := by
  have hkey := sameKey_eq_false_of_ne (d := today) hk
  cases hsc : kc.scrape <;> cases hsv : kc.save <;>
    simp only [processKeyword, hsc, hsv, save_ranking_outcome] <;>
    first
      | exact hr
      | exact mem_save_ranking_rankings_of_ne _ _ _ _ _ _ _ _ _ hr hkey

theorem savedRow_client_id (kc : KeywordCheck) (today : Nat) :
    (savedRow kc today).client_id = kc.client_id := by
  cases hsc : kc.scrape <;> simp [savedRow, hsc]

theorem savedRow_keyword (kc : KeywordCheck) (today : Nat) :
    (savedRow kc today).keyword = kc.keyword := by
  cases hsc : kc.scrape <;> simp [savedRow, hsc]

theorem savedRow_mem_processKeyword (today : Nat) (st : RunState)
    (kc : KeywordCheck) (hok : scrapeOk kc = true) (hsv : kc.save = .ok) :
    savedRow kc today ∈ (processKeyword today st kc).db.rankings := by
  cases hsc : kc.scrape with
  | raised msg => simp [scrapeOk, hsc] at hok
  | found p u t s =>
    simp only [processKeyword, hsc, hsv, save_ranking_outcome, savedRow]
    exact List.mem_append_right _ (List.mem_singleton.mpr rfl)
  | notFound =>
    simp only [processKeyword, hsc, hsv, save_ranking_outcome, savedRow]
    exact List.mem_append_right _ (List.mem_singleton.mpr rfl)

theorem foldl_run_preserve (today : Nat) (checks : List KeywordCheck) :
    ∀ (st : RunState) (r : RankRow), r ∈ st.db.rankings →
      (∀ kc ∈ checks, r.client_id ≠ kc.client_id ∨ r.keyword ≠ kc.keyword) →
      r ∈ (checks.foldl (processKeyword today) st).db.rankings := by
  induction checks with
  | nil => intro st r hr _; simpa using hr
  | cons kc l ih =>
    intro st r hr hne
    rw [List.foldl_cons]
    exact ih _ r
      (mem_processKeyword_of_ne today st kc hr (hne kc (by simp)))
      (fun kc2 h2 => hne kc2 (by simp [h2]))

theorem foldl_run_persists (today : Nat) (checks : List KeywordCheck) :
    ∀ st : RunState,
      (checks.map (fun kc => (kc.client_id, kc.keyword))).Nodup →
      ∀ kc ∈ checks, scrapeOk kc = true → kc.save = .ok →
        savedRow kc today ∈
          (checks.foldl (processKeyword today) st).db.rankings := by
  induction checks with
  | nil => intro st _ kc h; cases h
  | cons kc0 l ih =>
    intro st hnd kc hmem hok hsv
    rw [List.foldl_cons]
    rcases List.mem_cons.mp hmem with heq | hmem2
    · subst heq
      apply foldl_run_preserve
      · exact savedRow_mem_processKeyword today st kc hok hsv
      · intro kc2 h2
        have hnotin := (List.nodup_cons.mp hnd).1
        rw [savedRow_client_id, savedRow_keyword]
        by_contra hcon
        push_neg at hcon
        refine hnotin ?_
        have heq2 : (fun kc => (kc.client_id, kc.keyword)) kc
            = (fun kc => (kc.client_id, kc.keyword)) kc2 := by
          simp [hcon.1, hcon.2]
        rw [heq2]
        exact List.mem_map_of_mem _ h2
    · exact ih _ (List.nodup_cons.mp hnd).2 kc hmem2 hok hsv

theorem length_filterMap_errEntry (checks : List KeywordCheck) :
    (checks.filterMap errEntry).length
      = checks.countP (fun kc => !(scrapeOk kc)) := by
  induction checks with
  | nil => rfl
  | cons kc l ih =>
    rw [List.filterMap_cons, List.countP_cons]
    cases hsc : kc.scrape
    all_goals simp [errEntry, scrapeOk, hsc, ih]

/-- C3. Over any run, the final counters equal the number of keyword
checks processed, of scrape calls that returned, and of scrape calls that
raised; the error list holds exactly one "keyword: error" entry per
raising scrape (so its length is the failure count); and, when the
(client, keyword) pairs of the run are distinct and no storage failure
occurs, every returned observation is persisted in the rankings store.
The fold runs over the whole list, so the run continues past every
failure: a 10-keyword run with 3 raising scrapes yields
successful_checks 7, failed_checks 3 and 3 error entries while the 7
observations are saved. -/
theorem run_accounting_on_scrape_failures (db : DB) (today : Nat)
    (checks : List KeywordCheck)
    (hnd : (checks.map (fun kc => (kc.client_id, kc.keyword))).Nodup)
    (hsaves : ∀ kc ∈ checks, kc.save = SaveOutcome.ok) :
    (track_all db today checks).total = checks.length ∧
    (track_all db today checks).successful
      = checks.countP (fun kc => scrapeOk kc) ∧
    (track_all db today checks).failed
      = checks.countP (fun kc => !(scrapeOk kc)) ∧
    (track_all db today checks).errors = checks.filterMap errEntry ∧
    (track_all db today checks).errors.length
      = checks.countP (fun kc => !(scrapeOk kc)) ∧
    (∀ kc ∈ checks, scrapeOk kc = true →
      savedRow kc today ∈ (track_all db today checks).db.rankings) := by
  unfold track_all
  refine ⟨?_, ?_, ?_, ?_, ?_, ?_⟩
  · rw [foldl_run_total]; simp
  · rw [foldl_run_successful]; simp
  · rw [foldl_run_failed]; simp
  · rw [foldl_run_errors]; simp
  · rw [foldl_run_errors]; simp [length_filterMap_errEntry]
  · intro kc hmem hok
    exact foldl_run_persists today checks _ hnd kc hmem hok
      (hsaves kc hmem)

/-- A concrete 10-keyword run in which 3 scrape calls raise. -/
def sampleRun : List KeywordCheck :=
  [⟨"c", "d", "k1", .found 3 "u1" "t1" "s1", .ok⟩,
   ⟨"c", "d", "k2", .raised "timeout", .ok⟩,
   ⟨"c", "d", "k3", .notFound, .ok⟩,
   ⟨"c", "d", "k4", .found 1 "u4" "t4" "s4", .ok⟩,
   ⟨"c", "d", "k5", .raised "http 429", .ok⟩,
   ⟨"c", "d", "k6", .found 12 "u6" "t6" "s6", .ok⟩,
   ⟨"c", "d", "k7", .notFound, .ok⟩,
   ⟨"c", "d", "k8", .raised "conn reset", .ok⟩,
   ⟨"c", "d", "k9", .found 7 "u9" "t9" "s9", .ok⟩,
   ⟨"c", "d", "k10", .found 2 "u10" "t10" "s10", .ok⟩]

/-- Witness for C3: the 10-keyword run with 3 scrape failures records 7
successes, 3 failures and 3 error entries, and persists all 7
observations. -/
theorem run_accounting_on_scrape_failures_witness :
    (track_all ⟨[], []⟩ 1 sampleRun).total = 10 ∧
    (track_all ⟨[], []⟩ 1 sampleRun).successful = 7 ∧
    (track_all ⟨[], []⟩ 1 sampleRun).failed = 3 ∧
    (track_all ⟨[], []⟩ 1 sampleRun).errors
      = ["k2: timeout", "k5: http 429", "k8: conn reset"] ∧
    (track_all ⟨[], []⟩ 1 sampleRun).errors.length = 3 ∧
    (∀ kc ∈ sampleRun, scrapeOk kc = true →
      savedRow kc 1 ∈ (track_all ⟨[], []⟩ 1 sampleRun).db.rankings) := by
  have h := run_accounting_on_scrape_failures ⟨[], []⟩ 1 sampleRun
    (by decide) (by decide)
  exact ⟨h.1.trans (by decide), h.2.1.trans (by decide),
    h.2.2.1.trans (by decide), h.2.2.2.1.trans (by decide),
    h.2.2.2.2.1.trans (by decide), h.2.2.2.2.2⟩

/-- Counterexample to C5: a check whose scrape succeeds at position 3 but
whose save hits a storage failure is counted successful, yet leaves no
rankings row and no error-list entry — the observation is lost silently. -/
theorem storage_failure_lost_silently_cex :
    (track_all ⟨[], []⟩ 1
        [⟨"c", "d", "kw", .found 3 "u" "t" "s", .storageFailure⟩]).successful
      = 1 ∧
    (track_all ⟨[], []⟩ 1
        [⟨"c", "d", "kw", .found 3 "u" "t" "s", .storageFailure⟩]).errors
      = [] ∧
    (track_all ⟨[], []⟩ 1
        [⟨"c", "d", "kw", .found 3 "u" "t" "s", .storageFailure⟩]).db.rankings
      = [] := by decide

/-- C5 amended: every raising scrape contributes its "keyword: error"
entry to the run's error list, and every returned observation whose save
succeeds is persisted (with distinct keys); but a storage failure during
save is reported only by save_ranking's print-and-return-False, which the
loop ignores: that observation is neither persisted nor recorded in the
error list, and its check still counts as successful. -/
theorem run_results_persisted_or_reported (db : DB) (today : Nat)
    (checks : List KeywordCheck) :
    (∀ kc ∈ checks, ∀ e, errEntry kc = some e →
        e ∈ (track_all db today checks).errors) ∧
    ((checks.map (fun kc => (kc.client_id, kc.keyword))).Nodup →
      ∀ kc ∈ checks, scrapeOk kc = true → kc.save = SaveOutcome.ok →
        savedRow kc today ∈ (track_all db today checks).db.rankings) ∧
    (track_all db today checks).successful
      = checks.countP (fun kc => scrapeOk kc) := by
  refine ⟨?_, ?_, ?_⟩
  · intro kc hmem e he
    unfold track_all
    rw [foldl_run_errors]
    simp only [List.nil_append]
    exact List.mem_filterMap.mpr ⟨kc, hmem, he⟩
  · intro hnd kc hmem hok hsv
    exact foldl_run_persists today checks _ hnd kc hmem hok hsv
  · unfold track_all
    rw [foldl_run_successful]
    simp

/-- A concrete run with one raising scrape, one found-and-saved check and
one not-found check whose save fails. -/
def sampleRunB : List KeywordCheck :=
  [⟨"c", "d", "a", .raised "boom", .ok⟩,
   ⟨"c", "d", "b", .found 2 "u" "t" "s", .ok⟩,
   ⟨"c", "d", "e", .notFound, .storageFailure⟩]

/-- Witness for the amended C5 on a concrete run. -/
theorem run_results_persisted_or_reported_witness :
    "a: boom" ∈ (track_all ⟨[], []⟩ 1 sampleRunB).errors ∧
    savedRow ⟨"c", "d", "b", .found 2 "u" "t" "s", .ok⟩ 1
      ∈ (track_all ⟨[], []⟩ 1 sampleRunB).db.rankings ∧
    (track_all ⟨[], []⟩ 1 sampleRunB).successful = 2 := by
  have h := run_results_persisted_or_reported ⟨[], []⟩ 1 sampleRunB
  exact ⟨h.1 ⟨"c", "d", "a", .raised "boom", .ok⟩ (by decide) "a: boom"
      (by decide),
    h.2.1 (by decide) ⟨"c", "d", "b", .found 2 "u" "t" "s", .ok⟩
      (by decide) (by decide) (by decide),
    h.2.2.trans (by decide)⟩

/-- C2 (code defect). The requests strategy returns the same value, None,
both when the fetched page contains no match and when the fetch raises:
the bare except of _search_with_requests swallows the error, so the two
outcomes are not distinguishable by the caller, and track_all then counts
the failed check as successful, persisting a NULL-position row for it. -/
theorem fetch_failure_conflated_with_not_found :
    (∀ msg target : String,
      search_with_requests (.failure msg) target = none) ∧
    (∀ target : String, search_with_requests (.success []) target = none) ∧
    (track_all ⟨[], []⟩ 1 [⟨"c", "d", "kw", .notFound, .ok⟩]).successful
      = 1 ∧
    (track_all ⟨[], []⟩ 1 [⟨"c", "d", "kw", .notFound, .ok⟩]).failed = 0 ∧
    (track_all ⟨[], []⟩ 1
        [⟨"c", "d", "kw", .notFound, .ok⟩]).db.rankings
      = [⟨"c", "d", "kw", none, none, none, none, 1, none⟩] :=
  ⟨fun _ _ => rfl, fun _ => rfl, by decide, by decide, by decide⟩

/-- Counterexample to C7: with scraperapi selected and no API key, the
factory does not surface an error or abort — it returns the requests-based
scraper, with only a printed warning. -/
theorem create_scraper_missing_key_no_error_cex :
    create_scraper ⟨some "scraperapi", none, false⟩
      = .ok (ScraperChoice.requests, true) := rfl

/-- C7 amended: when the delegated-API strategy is selected but the API
key is absent or empty, create_scraper prints a warning and falls back to
the requests-based scraper; no error is raised and the run proceeds with
the fallback variant. -/
theorem create_scraper_missing_key_fallback (cfg : ScrapingConfig)
    (hp : cfg.proxy_service = some "scraperapi")
    (hk : cfg.scraperapi_key = none ∨ cfg.scraperapi_key = some "") :
    create_scraper cfg = .ok (ScraperChoice.requests, true) := by
  cases hk with
  | inl h => simp [create_scraper, hp, h]
  | inr h => simp [create_scraper, hp, h]

/-- Witness for the amended C7 at a concrete configuration with an empty
key. -/
theorem create_scraper_missing_key_fallback_witness :
    create_scraper ⟨some "scraperapi", some "", true⟩
      = .ok (ScraperChoice.requests, true) :=
  create_scraper_missing_key_fallback ⟨some "scraperapi", some "", true⟩
    rfl (Or.inr rfl)

/-- C9. In the selenium strategy, once the driver is created every exit
path of the scrape call — a parsed page (match or not-found) as well as
any exception raised in the try body — ends by quitting the driver: the
action trace starts with createDriver and its final action is quitDriver,
while the returned value is the parse result on a loaded page and None
when the body raised. -/
theorem selenium_browser_always_quit (env : SelOutcome) (target : String) :
    (search_with_selenium env target).2.getLast? = some SelAction.quitDriver ∧
    (search_with_selenium env target).2.head? = some SelAction.createDriver ∧
    (search_with_selenium env target).1
      = (match env with
         | .loaded divs => parse_google_results divs target
         | .raised _ => none) := by
  cases env <;> exact ⟨rfl, rfl, rfl⟩

/-- A client store where keyword A was checked on days 1 and 2 but
keyword B only on day 1. -/
def sampleDB : DB :=
  ⟨[⟨"c", "d", "A", some 5, none, none, none, 1, none⟩,
    ⟨"c", "d", "A", some 6, none, none, none, 2, none⟩,
    ⟨"c", "d", "B", some 1, none, none, none, 1, none⟩], []⟩

/-- Counterexample to C6: keyword B is tracked for the client and its
latest record is the day-1 row, yet the query result contains no row for
B at all — the query keeps only rows at the client's single most recent
check_date, not the latest-dated record per keyword. -/
theorem current_rankings_omits_stale_keyword_cex :
    get_current_rankings sampleDB "c"
      = [⟨"c", "d", "A", some 6, none, none, none, 2, none⟩] ∧
    (⟨"c", "d", "B", some 1, none, none, none, 1, none⟩ : RankRow)
      ∈ sampleDB.rankings ∧
    (get_current_rankings sampleDB "c").all
      (fun r => !(r.keyword == "B")) = true := by decide

instance : IsTotal RankRow rowLE := by
  constructor
  intro a b
  unfold rowLE posLE
  cases a.position <;> cases b.position <;> simp
  exact Int.le_total _ _

instance : IsTrans RankRow rowLE := by
  constructor
  intro a b c
  unfold rowLE posLE
  cases a.position <;> cases b.position <;> cases c.position <;> simp
  omega

theorem maxFold_some (rows : List RankRow) :
    ∀ a : Nat,
      rows.foldl
          (fun acc r =>
            match acc with
            | none => some r.check_date
            | some m => some (max m r.check_date))
          (some a)
        = some (rows.foldl (fun x r => max x r.check_date) a) := by
  induction rows with
  | nil => intro a; rfl
  | cons r l ih => intro a; exact ih (max a r.check_date)

theorem natFold_max_spec (rows : List RankRow) :
    ∀ a : Nat,
      a ≤ rows.foldl (fun x r => max x r.check_date) a ∧
      (∀ r ∈ rows,
        r.check_date ≤ rows.foldl (fun x r => max x r.check_date) a) ∧
      (a = rows.foldl (fun x r => max x r.check_date) a ∨
        ∃ r ∈ rows,
          r.check_date = rows.foldl (fun x r => max x r.check_date) a) := by
  induction rows with
  | nil => intro a; exact ⟨Nat.le_refl a, by simp, Or.inl rfl⟩
  | cons r l ih =>
    intro a
    obtain ⟨h1, h2, h3⟩ := ih (max a r.check_date)
    rw [List.foldl_cons]
    refine ⟨Nat.le_trans (Nat.le_max_left _ _) h1, ?_, ?_⟩
    · intro r2 hr2
      rcases List.mem_cons.mp hr2 with heq | hmem
      · subst heq
        exact Nat.le_trans (Nat.le_max_right _ _) h1
      · exact h2 r2 hmem
    · rcases h3 with heq | ⟨r2, hmem, heq⟩
      · rcases Nat.le_total a r.check_date with hle | hle
        · rw [Nat.max_eq_right hle] at heq ⊢
          exact Or.inr ⟨r, List.mem_cons_self r l, heq⟩
        · rw [Nat.max_eq_left hle] at heq ⊢
          exact Or.inl heq
      · exact Or.inr ⟨r2, List.mem_cons_of_mem r hmem, heq⟩

theorem get_current_rankings_eq (db : DB) (client : String) :
    get_current_rankings db client =
      match maxCheckDate
          (db.rankings.filter (fun r => r.client_id == client)) with
      | none => []
      | some m =>
        List.insertionSort rowLE
          ((db.rankings.filter (fun r => r.client_id == client)).filter
            (fun r => r.check_date == m)) := rfl

theorem maxCheckDate_spec (rows : List RankRow) (m : Nat)
    (h : maxCheckDate rows = some m) :
    (∀ r ∈ rows, r.check_date ≤ m) ∧ ∃ r ∈ rows, r.check_date = m := by
  cases rows with
  | nil => cases h
  | cons r l =>
    unfold maxCheckDate at h
    rw [List.foldl_cons, maxFold_some] at h
    obtain ⟨h1, h2, h3⟩ := natFold_max_spec l r.check_date
    injection h with hm
    subst hm
    refine ⟨?_, ?_⟩
    · intro r2 hr2
      rcases List.mem_cons.mp hr2 with heq | hmem
      · subst heq; exact h1
      · exact h2 r2 hmem
    · rcases h3 with heq | ⟨r2, hmem, heq⟩
      · exact ⟨r, List.mem_cons_self r l, heq⟩
      · exact ⟨r2, List.mem_cons_of_mem r hmem, heq⟩

/-- C6 amended: for a client with records, get_current_rankings returns
exactly the client's rows whose check_date equals the client's single
greatest check_date — keywords whose latest record is older are omitted —
as a permutation of that set sorted by position ascending with NULL
positions last; the greatest date bounds every record of the client and
is attained; a client with no records yields the empty list. -/
theorem current_rankings_latest_snapshot_sorted (db : DB)
    (client : String) :
    (maxCheckDate (db.rankings.filter (fun r => r.client_id == client))
        = none →
      get_current_rankings db client = []) ∧
    (∀ m,
      maxCheckDate (db.rankings.filter (fun r => r.client_id == client))
          = some m →
      (get_current_rankings db client).Perm
          (db.rankings.filter
            (fun r => r.client_id == client && r.check_date == m)) ∧
        List.Sorted rowLE (get_current_rankings db client) ∧
        (∀ r ∈ db.rankings, r.client_id = client → r.check_date ≤ m) ∧
        (∃ r ∈ db.rankings, r.client_id = client ∧ r.check_date = m)) := by
  constructor
  · intro h
    rw [get_current_rankings_eq, h]
  · intro m h
    obtain ⟨hub, r0, hr0mem, hr0eq⟩ :=
      maxCheckDate_spec (db.rankings.filter
        (fun r => r.client_id == client)) m h
    refine ⟨?_, ?_, ?_, ?_⟩
    · rw [get_current_rankings_eq, h]
      refine (List.perm_insertionSort rowLE _).trans (List.Perm.of_eq ?_)
      rw [List.filter_filter]
      exact List.filter_congr (fun a _ => Bool.and_comm _ _)
    · rw [get_current_rankings_eq, h]
      exact List.sorted_insertionSort rowLE _
    · intro r hr hc
      refine hub r ?_
      rw [List.mem_filter]
      exact ⟨hr, by simp [hc]⟩
    · rw [List.mem_filter] at hr0mem
      refine ⟨r0, hr0mem.1, ?_, hr0eq⟩
      have := hr0mem.2
      simpa using this

/-- Witness for the amended C6 at the concrete store. -/
theorem current_rankings_latest_snapshot_sorted_witness :
    (get_current_rankings sampleDB "c").Perm
        (sampleDB.rankings.filter
          (fun r => r.client_id == "c" && r.check_date == 2)) ∧
    List.Sorted rowLE (get_current_rankings sampleDB "c") ∧
    (∀ r ∈ sampleDB.rankings, r.client_id = "c" → r.check_date ≤ 2) ∧
    (∃ r ∈ sampleDB.rankings, r.client_id = "c" ∧ r.check_date = 2) :=
  (current_rankings_latest_snapshot_sorted sampleDB "c").2 2 (by decide)

/-! ## C8: parser domain matching -/

/-- Modelled from the claim's words, for comparison only: strip a leading
www. from the host and nothing else. -/
def stripLeadingWWW (host : String) : String :=
  if "www.".data.isPrefixOf host.data then String.mk (host.data.drop 4)
  else host

/-- Counterexample to C8: for target abcwww.de and a result hosted at
abcwww.de, stripping only a leading www. leaves the host equal to the
target, so the claim's normalization would match at position 1 — but the
code's replace deletes the interior lowercase www. occurrence, producing
abcde, which does not contain the target, and the parser returns no
match. -/
theorem domain_normalization_not_leading_strip_cex :
    parse_google_results [⟨some "https://abcwww.de/x", none, none⟩]
        "abcwww.de" = none ∧
    strContains (lowerS (stripLeadingWWW (netloc "https://abcwww.de/x")))
        (lowerS "abcwww.de") = true ∧
    removeAll (netloc "https://abcwww.de/x") "www." = "abcde" := by
  decide

/-- Follows the amended claim's words: an organic entry is one whose first
anchor has a nonempty href that does not contain google.com. -/
def isOrganic (d : ResultDiv) : Bool :=
  match d.href with
  | none => false
  | some u => !(u == "") && !(strContains u "google.com")

/-- Follows the amended claim's words: the entry's host, with every
occurrence of the lowercase substring www. deleted, contains the target,
case-insensitively. -/
def hostMatches (target : String) (d : ResultDiv) : Bool :=
  strContains (lowerS (removeAll (netloc (d.href.getD "")) "www."))
    (lowerS target)

/-- Follows the amended claim's words: scan the organic entries paired
with their 1-based ranks starting at n+1 and return the first whose host
matches. -/
def specFind (target : String) (organic : List ResultDiv) (n : Nat) :
    Option (Nat × String × String × String) :=
  match (organic.enumFrom n).find? (fun p => hostMatches target p.2) with
  | some (i, d) =>
    some (i + 1, d.href.getD "", d.title.getD "", d.snippet.getD "")
  | none => none

/-- Follows the amended claim's words: filter the page's entries down to
the organic ones, rank them from 1, and return the first whose normalized
host contains the target. -/
def parseSpecAmended (divs : List ResultDiv) (target : String) :
    Option (Nat × String × String × String) :=
  specFind target (divs.filter isOrganic) 0

theorem parseLoop_eq_specFind (target : String) :
    ∀ (divs : List ResultDiv) (n : Nat),
      parseLoop target divs n = specFind target (divs.filter isOrganic) n := by
  intro divs
  induction divs with
  | nil => intro n; rfl
  | cons d rest ih =>
    intro n
    cases hh : d.href with
    | none =>
      have ho : isOrganic d = false := by simp [isOrganic, hh]
      simp only [parseLoop, hh, List.filter_cons, ho]
      exact ih n
    | some url =>
      cases hu : (url == "") with
      | true =>
        have ho : isOrganic d = false := by simp [isOrganic, hh, hu]
        simp only [parseLoop, hh, hu, List.filter_cons, ho]
        exact ih n
      | false =>
        cases hg : strContains url "google.com" with
        | true =>
          have ho : isOrganic d = false := by simp [isOrganic, hh, hu, hg]
          simp only [parseLoop, hh, hu, hg, List.filter_cons, ho]
          exact ih n
        | false =>
          have ho : isOrganic d = true := by simp [isOrganic, hh, hu, hg]
          simp only [parseLoop, hh, hu, hg, List.filter_cons, ho]
          cases hm : hostMatches target d with
          | true =>
            have hm2 : strContains
                (lowerS (removeAll (netloc url) "www.")) (lowerS target)
                = true := by
              have := hm
              unfold hostMatches at this
              rw [hh] at this
              simpa using this
            simp [specFind, List.enumFrom, List.find?, hm, hm2, hh]
          | false =>
            have hm2 : strContains
                (lowerS (removeAll (netloc url) "www.")) (lowerS target)
                = false := by
              have := hm
              unfold hostMatches at this
              rw [hh] at this
              simpa using this
            simp only [specFind, List.enumFrom, List.find?, hm, hm2,
              if_false, Bool.false_eq_true]
            rw [ih (n + 1)]
            rfl

/-- C8 amended. The parser returns exactly the first organic entry
(nonempty href, not a google.com link) whose host — normalized by
deleting every occurrence of the lowercase substring www., not only a
leading one and case-sensitively — contains the lowercased target as a
substring, together with that entry's 1-based organic rank; later
occurrences of the same domain are ignored. A result at host
WWW.Example.com still matches target example.com, via the
case-insensitive substring test rather than the www. removal. -/
theorem parser_first_match_normalized (divs : List ResultDiv)
    (target : String) :
    parse_google_results divs target = parseSpecAmended divs target ∧
    parse_google_results
        [⟨some "https://WWW.Example.com/page", some "T", some "S"⟩]
        "example.com"
      = some (1, "https://WWW.Example.com/page", "T", "S") :=
  ⟨parseLoop_eq_specFind target divs 0, by decide⟩
